import Mathlib

/-!
Verification of the LLMShell command-safety analyzer (`llmshell/safety.py`)
and its confirmation policy (`llmshell/core.py`), shallowly embedded in Lean.

Python regular-expression patterns are embedded as a small regex AST with a
Brzozowski-derivative matcher; `re.search` is modelled as matching at any
start position.  `shlex.split` (POSIX mode) is embedded as an explicit state
machine returning `none` on a tokenization error (unbalanced quote or a
trailing escape character).  All definitions are executable.
-/

/-- Danger levels for commands (`safety.py`, class `DangerLevel`). -/
inductive DangerLevel where
  | SAFE
  | LOW
  | MEDIUM
  | HIGH
  | CRITICAL
deriving DecidableEq, Repr, Fintype

/-- The integer value backing each enum member (`DangerLevel` values 0..4). -/
def DangerLevel.value : DangerLevel → Nat
  | .SAFE => 0
  | .LOW => 1
  | .MEDIUM => 2
  | .HIGH => 3
  | .CRITICAL => 4

/-- The level-update step used throughout `safety.py`:
`if new.value > cur.value: cur = new`. -/
def bump (cur new : DangerLevel) : DangerLevel :=
  if cur.value < new.value then new else cur

/-- Maximum of a collection of danger levels, `SAFE` for the empty one. -/
def maxLevelOf (ls : List DangerLevel) : DangerLevel :=
  ls.foldl bump .SAFE

/-- Risk assessment of a command (`safety.py`, class `CommandRisk`). -/
structure CommandRisk where
  level : DangerLevel
  reasons : List String
  suggestions : List String
deriving DecidableEq, Repr

/-- `CommandRisk.requires_confirmation`: `level.value >= LOW.value`. -/
def requiresConfirmation (l : DangerLevel) : Bool :=
  DangerLevel.LOW.value ≤ l.value

/-- `CommandRisk.is_dangerous`: `level.value >= MEDIUM.value`. -/
def isDangerous (l : DangerLevel) : Bool :=
  DangerLevel.MEDIUM.value ≤ l.value

/-! ## Regex engine

A character-class based regex AST with Brzozowski derivatives, used to embed
the Python `re` patterns of `safety.py`. -/

inductive Rx where
  | emp : Rx
  | eps : Rx
  | cls : (Char → Bool) → Rx
  | alt : Rx → Rx → Rx
  | cat : Rx → Rx → Rx
  | star : Rx → Rx

/-- Alternation, simplifying the empty language away. -/
def mkAlt : Rx → Rx → Rx
  | .emp, r => r
  | r, .emp => r
  | a, b => .alt a b

/-- Concatenation, simplifying the empty language and empty string away. -/
def mkCat : Rx → Rx → Rx
  | .emp, _ => .emp
  | _, .emp => .emp
  | .eps, r => r
  | r, .eps => r
  | a, b => .cat a b

/-- Does the regex accept the empty string? -/
def nullable : Rx → Bool
  | .emp => false
  | .eps => true
  | .cls _ => false
  | .alt a b => nullable a || nullable b
  | .cat a b => nullable a && nullable b
  | .star _ => true

/-- Brzozowski derivative with respect to one character. -/
def derivC : Rx → Char → Rx
  | .emp, _ => .emp
  | .eps, _ => .emp
  | .cls p, c => if p c then .eps else .emp
  | .alt a b, c => mkAlt (derivC a c) (derivC b c)
  | .cat a b, c =>
    if nullable a then mkAlt (mkCat (derivC a c) b) (derivC b c)
    else mkCat (derivC a c) b
  | .star a, c => mkCat (derivC a c) (.star a)

/-- Does some (possibly empty) leading segment of the input match the regex? -/
def matchesFromStart : Rx → List Char → Bool
  | r, [] => nullable r
  | r, c :: cs => nullable r || matchesFromStart (derivC r c) cs

/-- Python `re.search`: the regex matches at some start position. -/
def research (r : Rx) : List Char → Bool
  | [] => nullable r
  | c :: cs => matchesFromStart r (c :: cs) || research r cs

/-! ### Pattern combinators mirroring the `re` syntax used in `safety.py` -/

/-- A single literal character. -/
def chr (c : Char) : Rx := .cls (fun x => x = c)

/-- A literal string of characters. -/
def strRx (s : String) : Rx := s.data.foldr (fun c r => .cat (chr c) r) .eps

/-- Sequencing of a list of regex pieces. -/
def rcat (l : List Rx) : Rx := l.foldr .cat .eps

/-- Python `\s` (ASCII): space, tab, newline, carriage return, vertical tab,
form feed. -/
def isReSpace (c : Char) : Bool :=
  c = ' ' || c = '\t' || c = '\n' || c = '\r' || c = '\x0b' || c = '\x0c'

/-- `\s` as a character class. -/
def wsC : Rx := .cls isReSpace

/-- `\s+`. -/
def wsP : Rx := .cat wsC (.star wsC)

/-- `\s*`. -/
def wsS : Rx := .star wsC

/-- `.` — any character except a newline. -/
def dotC : Rx := .cls (fun c => c ≠ '\n')

/-- `.*`. -/
def dotS : Rx := .star dotC

/-- Python `\w` (ASCII): letters, digits and underscore. -/
def wordC : Rx := .cls (fun c => c.isAlphanum || c = '_')

/-- `\w+`. -/
def wordP : Rx := .cat wordC (.star wordC)

/-- Alternation over a list of branches (a regex group `(a|b|...)`). -/
def altL : List Rx → Rx
  | [] => .emp
  | [r] => r
  | r :: rs => .alt r (altL rs)

/-! ## Rule tables (`SafetyAnalyzer.setup_rules`) -/

/-- Character class `[sh]`. -/
def shC : Rx := .cls (fun c => c = 's' || c = 'h')

/-- Character class `[a-z]`. -/
def azC : Rx := .cls (fun c => 'a' ≤ c && c ≤ 'z')

/-- Character class `[0-7]`. -/
def octC : Rx := .cls (fun c => '0' ≤ c && c ≤ '7')

/-- Critical danger patterns, in source order. -/
def critical_patterns : List (Rx × String) :=
  [ (rcat [strRx "rm", wsP, strRx "-rf", wsP, chr '/'],
     "Attempting to delete root filesystem"),
    (rcat [chr ':', chr '(', chr ')', chr (Char.ofNat 123), wsS, chr ':',
           chr '|', chr ':', chr '&', wsS, chr (Char.ofNat 125), chr ';', chr ':'],
     "Fork bomb attempt"),
    (rcat [strRx "dd", wsP, strRx "if=/dev/", altL [strRx "zero", strRx "random"],
           wsP, strRx "of=/dev/", shC, chr 'd', azC],
     "Attempting to overwrite disk"),
    (rcat [strRx "mkfs.", wordP, wsP, strRx "/dev/", shC, chr 'd', azC],
     "Attempting to format disk"),
    (rcat [strRx "rm", wsP, strRx "-rf", wsP, chr '*'],
     "Attempting to delete all files recursively"),
    (rcat [strRx "echo", wsP, dotS, chr '>', wsS, strRx "/etc/",
           altL [strRx "passwd", strRx "shadow", strRx "sudoers"]],
     "Attempting to modify critical system files") ]

/-- High danger patterns, in source order. -/
def high_patterns : List (Rx × String) :=
  [ (rcat [strRx "sudo", wsP, strRx "rm", wsP, strRx "-rf"],
     "Recursive deletion with sudo privileges"),
    (rcat [strRx "chmod", wsP, strRx "-R", wsP, strRx "777", wsP, chr '/'],
     "Setting dangerous permissions on root"),
    (rcat [strRx "chown", wsP, strRx "-R", wsP, dotS, strRx ":/"],
     "Changing ownership of system directories"),
    (rcat [strRx "killall", wsP, strRx "-9", wsP,
           altL [strRx "init", strRx "systemd", strRx "kernel"]],
     "Attempting to kill critical system processes"),
    (rcat [altL [strRx "reboot", strRx "shutdown", strRx "halt"], wsP,
           altL [strRx "-f", strRx "--force"]],
     "Forced system shutdown/reboot"),
    (rcat [strRx "iptables", wsP, strRx "-F"],
     "Flushing firewall rules"),
    (rcat [strRx "history", wsP, strRx "-c"],
     "Clearing command history"),
    (rcat [strRx "shred", wsP, dotS],
     "Securely deleting files") ]

/-- Medium danger patterns, in source order. -/
def medium_patterns : List (Rx × String) :=
  [ (rcat [strRx "rm", wsP, strRx "-rf", wsP,
           Rx.cls (fun c => !(c = '/') && !isReSpace c)],
     "Recursive deletion"),
    (rcat [strRx "mv", wsP, dotS, wsP, strRx "/dev/null"],
     "Moving files to null device"),
    (rcat [chr '>', wsS, strRx "/etc/"],
     "Redirecting output to system config files"),
    (rcat [strRx "chmod", wsP, octC, octC, octC, wsP, dotS, chr '.',
           altL [strRx "sh", strRx "py", strRx "pl", strRx "rb"]],
     "Changing executable permissions"),
    (rcat [strRx "find", wsP, dotS, strRx "-exec", wsP, strRx "rm"],
     "Finding and deleting files"),
    (rcat [strRx "tar", wsP, dotS, strRx "--overwrite"],
     "Overwriting files during extraction"),
    (rcat [strRx "wget", wsP, dotS, chr '|', wsS, altL [strRx "bash", strRx "sh"]],
     "Downloading and executing remote scripts"),
    (rcat [strRx "curl", wsP, dotS, chr '|', wsS, altL [strRx "bash", strRx "sh"]],
     "Downloading and executing remote scripts") ]

/-- Low danger patterns, in source order. -/
def low_patterns : List (Rx × String) :=
  [ (rcat [strRx "rm", wsP, Rx.cls (fun c => !(c = '-'))],
     "Deleting files"),
    (rcat [strRx "cp", wsP, dotS, wsP, dotS, chr '.',
           altL [strRx "conf", strRx "cfg", strRx "ini"]],
     "Copying configuration files"),
    (rcat [strRx "mv", wsP, dotS, chr '.',
           altL [strRx "conf", strRx "cfg", strRx "ini"]],
     "Moving configuration files"),
    (rcat [strRx "nano", wsP, strRx "/etc/"],
     "Editing system configuration"),
    (rcat [strRx "vi", wsP, strRx "/etc/"],
     "Editing system configuration"),
    (rcat [strRx "chmod", wsP, strRx "+x"],
     "Making files executable"),
    (rcat [strRx "sudo", wsP, Rx.cls (fun c => !(c = 'r') && !(c = 'm'))],
     "Running command with sudo privileges") ]

/-- Safe command leading tokens (`safe_prefixes`), in source order. -/
def safe_prefixes : List String :=
  [ "ls", "cat", "less", "more", "head", "tail", "grep", "find", "locate",
    "ps", "top", "htop", "df", "du", "free", "uptime", "whoami", "pwd",
    "date", "cal", "history", "man", "info", "which", "whereis", "type",
    "echo", "printf", "wc", "sort", "uniq", "cut", "awk", "sed" ]

/-- Dangerous executables, in source order. -/
def dangerous_executables : List String :=
  [ "fdisk", "parted", "gparted", "mkfs", "fsck", "mount", "umount",
    "iptables", "ufw", "firewall-cmd", "systemctl", "service" ]

/-- Protected filesystem path prefixes, in source order. -/
def protected_paths : List String :=
  [ "/", "/boot", "/etc", "/usr", "/var", "/sys", "/proc",
    "/dev/sda", "/dev/sdb", "/dev/nvme", "/dev/hd" ]

/-! ## Structure regexes of `_analyze_structure` (matched against the
original-case command) -/

/-- `>\s*(/etc|/usr|/var)`. -/
def redirSysRx : Rx :=
  rcat [chr '>', wsS, altL [strRx "/etc", strRx "/usr", strRx "/var"]]

/-- `rm\s+.*\*`. -/
def rmWildRx : Rx := rcat [strRx "rm", wsP, dotS, chr '*']

/-- `chmod\s+.*\*`. -/
def chmodWildRx : Rx := rcat [strRx "chmod", wsP, dotS, chr '*']

/-- `\|\s*(bash|sh|zsh|fish)`. -/
def pipeShellRx : Rx :=
  rcat [chr '|', wsS, altL [strRx "bash", strRx "sh", strRx "zsh", strRx "fish"]]

/-! ## List/string helpers -/

/-- Python `str.lower` (ASCII). -/
def lowerL (d : List Char) : List Char := d.map Char.toLower

/-- Python `str` whitespace stripped by `str.strip()` (ASCII). -/
def isPySpace (c : Char) : Bool :=
  c = ' ' || c = '\t' || c = '\n' || c = '\r' || c = '\x0b' || c = '\x0c'

/-- Python `str.strip()` (ASCII whitespace). -/
def stripL (d : List Char) : List Char :=
  ((d.dropWhile isPySpace).reverse.dropWhile isPySpace).reverse

/-- Substring containment, Python `needle in hay`. -/
def hasSub (hay needle : List Char) : Bool :=
  match hay with
  | [] => needle.isEmpty
  | _ :: t => needle.isPrefixOf hay || hasSub t needle

/-- Python `str.startswith`. -/
def strStartsWith (s pfx : String) : Bool := pfx.data.isPrefixOf s.data

/-- Python `str.endswith`. -/
def strEndsWith (s sfx : String) : Bool := sfx.data.reverse.isPrefixOf s.data.reverse

/-- Split a character list at every occurrence of a separator character. -/
def splitOnChar (sep : Char) : List Char → List (List Char)
  | [] => [[]]
  | h :: t =>
    match splitOnChar sep t with
    | [] => [[]]
    | r :: rs => if h = sep then [] :: r :: rs else (h :: r) :: rs

/-- Join path components with a slash separator. -/
def joinSlash : List (List Char) → List Char
  | [] => []
  | [p] => p
  | p :: ps => p ++ '/' :: joinSlash ps

/-- The string form of Python `pathlib.Path(s)` on POSIX: collapse repeated
slashes (a leading double slash is kept), drop `.` components and trailing
slashes; the empty path prints as `.`. -/
def posixPathStr (s : String) : String :=
  let comps := (splitOnChar '/' s.data).filter (fun p => !p.isEmpty && p ≠ ['.'])
  let root : List Char :=
    if strStartsWith s "//" && !strStartsWith s "///" then ['/', '/']
    else if strStartsWith s "/" then ['/'] else []
  if comps.isEmpty then (if root.isEmpty then "." else String.mk root)
  else String.mk (root ++ joinSlash comps)

/-! ## `shlex.split` (POSIX mode, whitespace_split) -/

/-- The single-quote character. -/
def sqChar : Char := Char.ofNat 39

/-- `shlex` whitespace: space, tab, carriage return, newline. -/
def shIsSpace (c : Char) : Bool :=
  c = ' ' || c = '\t' || c = '\r' || c = '\n'

/-- Tokenizer states: outside quotes, in single quotes, in double quotes,
after an escape character outside quotes, after an escape character inside
double quotes. -/
inductive ShSt where
  | norm
  | sq
  | dq
  | escN
  | escD

/-- State machine of `shlex.split` in POSIX mode.  `cur` is the token being
accumulated (`some` even when empty, e.g. after a closing quote), `acc` the
finished tokens.  Returns `none` on Python `ValueError` (no closing
quotation / no escaped character). -/
def shlexAux : ShSt → Option (List Char) → List (List Char) → List Char →
    Option (List (List Char))
  | .norm, cur, acc, [] =>
    some (acc ++ (match cur with | some t => [t] | none => []))
  | .norm, cur, acc, c :: cs =>
    if shIsSpace c then
      match cur with
      | some t => shlexAux .norm none (acc ++ [t]) cs
      | none => shlexAux .norm none acc cs
    else if c = sqChar then shlexAux .sq (some (cur.getD [])) acc cs
    else if c = '"' then shlexAux .dq (some (cur.getD [])) acc cs
    else if c = '\\' then shlexAux .escN (some (cur.getD [])) acc cs
    else shlexAux .norm (some (cur.getD [] ++ [c])) acc cs
  | .sq, _, _, [] => none
  | .sq, cur, acc, c :: cs =>
    if c = sqChar then shlexAux .norm cur acc cs
    else shlexAux .sq (some (cur.getD [] ++ [c])) acc cs
  | .dq, _, _, [] => none
  | .dq, cur, acc, c :: cs =>
    if c = '"' then shlexAux .norm cur acc cs
    else if c = '\\' then shlexAux .escD cur acc cs
    else shlexAux .dq (some (cur.getD [] ++ [c])) acc cs
  | .escN, _, _, [] => none
  | .escN, cur, acc, c :: cs => shlexAux .norm (some (cur.getD [] ++ [c])) acc cs
  | .escD, _, _, [] => none
  | .escD, cur, acc, c :: cs =>
    if c = '"' || c = '\\' then shlexAux .dq (some (cur.getD [] ++ [c])) acc cs
    else shlexAux .dq (some (cur.getD [] ++ ['\\', c])) acc cs

/-- `shlex.split(command)`: `none` models a raised `ValueError`. -/
def shlexSplit (d : List Char) : Option (List String) :=
  (shlexAux .norm none [] d).map (fun ts => ts.map String.mk)

/-! ## Findings and the analyzer passes -/

/-- One finding: a danger level, a human-readable reason, one suggestion. -/
abbrev Finding := DangerLevel × String × String

/-- Fold a list of findings into a `CommandRisk` the way the source loops do:
the level is bumped per finding, reasons and suggestions are appended. -/
def riskOfFindings (fs : List Finding) : CommandRisk :=
  ⟨maxLevelOf (fs.map (·.1)), fs.map (·.2.1), fs.map (·.2.2)⟩

/-- Optional situational context (`context` dict: `cwd` and `files`). -/
structure Ctx where
  cwd : String
  files : List String
deriving DecidableEq, Repr

/-- Findings of `SafetyAnalyzer._analyze_context`, in source order. -/
def contextFindings (command : String) (c : Ctx) : List Finding :=
  (if c.cwd ≠ "" then
     (protected_paths.filter
        (fun pr => strStartsWith (posixPathStr c.cwd) pr && pr ≠ "/")).map
       (fun pr => (.MEDIUM, "Operating in protected directory: " ++ pr,
                   "Be extra careful when modifying system directories"))
   else [])
  ++ (if hasSub (lowerL command.data) "rm".data
        || hasSub (lowerL command.data) "mv".data then
        if (c.files.filter (fun f => strStartsWith f "."
              || strEndsWith f ".conf" || strEndsWith f ".cfg"
              || strEndsWith f ".ini" || strEndsWith f ".yaml"
              || strEndsWith f ".json")).isEmpty then []
        else [(.LOW, "Command may affect configuration files",
               "Backup important files before modification")]
      else [])

/-- The context pass contributes nothing when no context is supplied. -/
def contextFindingsOpt (command : String) : Option Ctx → List Finding
  | some c => contextFindings command c
  | none => []

/-- Findings of `SafetyAnalyzer._analyze_structure`, in source order:
chaining, redirection to system directories, destructive wildcards,
pipe-to-interpreter, then (inside the `try`) the dangerous-executable check,
replaced by a malformed-syntax finding when `shlex.split` raises. -/
def structureFindings (command : String) : List Finding :=
  let d := command.data
  (if hasSub d "&&".data || hasSub d "||".data || hasSub d ";".data then
     [(.LOW, "Command contains multiple operations",
       "Review each operation in the chain")]
   else [])
  ++ (if research redirSysRx d then
        [(.MEDIUM, "Output redirection to system directories",
          "Ensure you have proper permissions and backup files")]
      else [])
  ++ (if research rmWildRx d || research chmodWildRx d then
        [(.MEDIUM, "Wildcard usage in potentially destructive command",
          "Be specific about target files instead of using wildcards")]
      else [])
  ++ (if research pipeShellRx d then
        [(.HIGH, "Piping output to shell execution",
          "Verify the source and content before execution")]
      else [])
  ++ (match shlexSplit d with
      | some [] => []
      | some (p0 :: _) =>
        let exe := String.mk ((splitOnChar '/' p0.data).getLastD [])
        if exe ∈ dangerous_executables then
          [(.MEDIUM, "Using potentially dangerous executable: " ++ exe,
            "Ensure you understand the implications of this command")]
        else []
      | none =>
        [(.LOW, "Command has malformed syntax",
          "Check command syntax before execution")])

/-- `_analyze_structure` as a `CommandRisk`. -/
def analyze_structure (command : String) : CommandRisk :=
  riskOfFindings (structureFindings command)

/-- `_analyze_context` as a `CommandRisk` (absent context contributes
nothing). -/
def analyze_context (command : String) (ctx : Option Ctx) : CommandRisk :=
  riskOfFindings (contextFindingsOpt command ctx)

/-! ## The risk aggregator `SafetyAnalyzer.analyze_command` -/

/-- The case-normalized command: `command.lower().strip()`. -/
def clOf (command : String) : List Char := stripL (lowerL command.data)

/-- The patterns of one tier matching the normalized command. -/
def tierHits (pats : List (Rx × String)) (cl : List Char) : List (Rx × String) :=
  pats.filter (fun p => research p.1 cl)

/-- The level a tier's exhaustive scan contributes: the tier level if any of
its patterns matched, `SAFE` otherwise. -/
def tierLevel (hits : List (Rx × String)) (lvl : DangerLevel) : DangerLevel :=
  if hits.isEmpty then .SAFE else lvl

/-- The running maximum level after the HIGH/MEDIUM/LOW tiers, the context
pass and the structure pass (the non-critical path of `analyze_command`). -/
def baseLevel (command : String) (ctx : Option Ctx) : DangerLevel :=
  bump (bump (bump (bump (bump .SAFE
    (tierLevel (tierHits high_patterns (clOf command)) .HIGH))
    (tierLevel (tierHits medium_patterns (clOf command)) .MEDIUM))
    (tierLevel (tierHits low_patterns (clOf command)) .LOW))
    (analyze_context command ctx).level)
    (analyze_structure command).level

/-- All reasons collected on the non-critical path, in append order: HIGH,
MEDIUM and LOW tiers, then context, then structure. -/
def collectedReasons (command : String) (ctx : Option Ctx) : List String :=
  (tierHits high_patterns (clOf command)).map (·.2)
  ++ (tierHits medium_patterns (clOf command)).map (·.2)
  ++ (tierHits low_patterns (clOf command)).map (·.2)
  ++ (analyze_context command ctx).reasons
  ++ (analyze_structure command).reasons

/-- The fixed per-tier suggestion strings. -/
def highSugg : String := "Double-check the target path and consider backing up first"

/-- MEDIUM-tier suggestion. -/
def medSugg : String := "Verify the operation is intended and paths are correct"

/-- LOW-tier suggestion. -/
def lowSugg : String := "Review the operation carefully"

/-- All suggestions collected on the non-critical path, in append order. -/
def collectedSuggs (command : String) (ctx : Option Ctx) : List String :=
  (tierHits high_patterns (clOf command)).map (fun _ => highSugg)
  ++ (tierHits medium_patterns (clOf command)).map (fun _ => medSugg)
  ++ (tierHits low_patterns (clOf command)).map (fun _ => lowSugg)
  ++ (analyze_context command ctx).suggestions
  ++ (analyze_structure command).suggestions

/-- First fixed suggestion of the CRITICAL short-circuit. -/
def critSugg1 : String := "This command can cause irreversible system damage"

/-- Second fixed suggestion of the CRITICAL short-circuit. -/
def critSugg2 : String := "Consider alternatives or seek expert help"

/-- The reason attached to the safe-prefix early return. -/
def safeReadOnly : String := "Safe read-only operation"

/-- `SafetyAnalyzer.analyze_command`.  The guard models
`if not command.strip(): return CommandRisk(SAFE, [])` (a string strips to
empty exactly when every character is whitespace); then the CRITICAL
short-circuit; then the exhaustive tiers, context and structure passes; the
safe-prefix check fires only when the running maximum is still `SAFE`;
`list(set(suggestions))` is modelled as deduplication. -/
def analyze_command (command : String) (ctx : Option Ctx) : CommandRisk :=
  if command.data.all isPySpace then ⟨.SAFE, [], []⟩
  else
    match critical_patterns.find? (fun p => research p.1 (clOf command)) with
    | some p => ⟨.CRITICAL, [p.2], [critSugg1, critSugg2]⟩
    | none =>
      if baseLevel command ctx = .SAFE then
        match shlexSplit command.data with
        | some (t :: _) =>
          if t ∈ safe_prefixes then ⟨.SAFE, [safeReadOnly], []⟩
          else ⟨baseLevel command ctx, collectedReasons command ctx,
                (collectedSuggs command ctx).dedup⟩
        | _ => ⟨baseLevel command ctx, collectedReasons command ctx,
                (collectedSuggs command ctx).dedup⟩
      else ⟨baseLevel command ctx, collectedReasons command ctx,
            (collectedSuggs command ctx).dedup⟩

/-- The levels of every individual finding each pass would produce when run
independently of the others: all four pattern tiers, the context pass, the
structure pass. -/
def independentLevels (command : String) (ctx : Option Ctx) : List DangerLevel :=
  (tierHits critical_patterns (clOf command)).map (fun _ => .CRITICAL)
  ++ (tierHits high_patterns (clOf command)).map (fun _ => .HIGH)
  ++ (tierHits medium_patterns (clOf command)).map (fun _ => .MEDIUM)
  ++ (tierHits low_patterns (clOf command)).map (fun _ => .LOW)
  ++ (contextFindingsOpt command ctx).map (·.1)
  ++ (structureFindings command).map (·.1)

/-! ## Confirmation policy (`core.py`)

`_handle_natural_language` and `_handle_direct_command` are modelled as pure
functions from the risk level (plus the `always_confirm` / `safe_mode`
configuration flags) to the outcome of the confirmation stage.  The
natural-language flow compares the level only with `==` and yields a
sequence of prompts; execution proceeds only if every prompt is accepted.
The direct-command flow, however, begins its confirmation block with
`if risk.level >= DangerLevel.MEDIUM:` — an ordering comparison on the
plain `Enum` `DangerLevel`, which raises `TypeError` in Python — so
whenever that block is entered it raises before any prompt is shown. -/

/-- One confirmation prompt with its default answer
(`true` = accept, `false` = decline). -/
structure Prompt where
  text : String
  ansDefault : Bool
deriving DecidableEq, Repr

/-- Prompts of the natural-language-translation flow
(`LLMShellCore._handle_natural_language`): the block runs when
`always_confirm or risk.requires_confirmation`. -/
def nlPrompts (level : DangerLevel) (alwaysConfirm : Bool) : List Prompt :=
  if alwaysConfirm || requiresConfirmation level then
    match level with
    | .CRITICAL =>
      [⟨"Type \x27I understand the risks\x27 to continue", false⟩,
       ⟨"Are you absolutely certain you want to proceed?", false⟩]
    | .HIGH =>
      [⟨"Are you sure you want to execute this high-risk command?", false⟩]
    | .MEDIUM => [⟨"Proceed with this potentially risky command?", true⟩]
    | .LOW => [⟨"Execute this command?", true⟩]
    | .SAFE =>
      if alwaysConfirm then [⟨"Execute this command?", true⟩] else []
  else []

/-- Outcome of the confirmation stage of the direct-command flow:
either a `TypeError` is raised before any prompt, or a (possibly empty)
sequence of prompts is presented. -/
inductive DirectConfirmResult where
  | raised
  | prompts (ps : List Prompt)
deriving DecidableEq, Repr

/-- Confirmation stage of the direct-command flow
(`LLMShellCore._handle_direct_command`).  The block is gated by
`safe_mode and risk.requires_confirmation`.  Its first statement is
`if risk.level >= DangerLevel.MEDIUM:` — `DangerLevel` is a plain `Enum`
with no ordering methods, so this comparison raises `TypeError` before any
`Confirm.ask`; the risk display and the whole `Confirm.ask` chain below it
(one prompt per level, e.g. a single decline-default prompt for CRITICAL)
are unreachable, the exception propagates out of the handler, and the
command is never executed.  When the gate is false the block is skipped and
no prompt is presented. -/
def directConfirmFlow (level : DangerLevel) (safeMode : Bool) :
    DirectConfirmResult :=
  if safeMode && requiresConfirmation level then .raised
  else .prompts []

/-- Execution proceeds only when every prompt in the sequence is accepted;
declining any prompt returns early without executing. -/
def proceeds (ps : List Prompt) (ans : Nat → Bool) : Bool :=
  (List.range ps.length).all ans

/-! ## Basic lemmas about levels and aggregation -/

theorem bump_val (a b : DangerLevel) : (bump a b).value = Nat.max a.value b.value := by
  revert a b; decide

theorem bump_safe_right (a : DangerLevel) : bump a .SAFE = a := by
  revert a; decide

theorem bump_safe_left (a : DangerLevel) : bump .SAFE a = a := by
  revert a; decide

theorem bump_assoc (a b c : DangerLevel) :
    bump (bump a b) c = bump a (bump b c) := by
  revert a b c; decide

theorem bump_self (a : DangerLevel) : bump a a = a := by
  revert a; decide

theorem value_inj (a b : DangerLevel) (h : a.value = b.value) : a = b := by
  revert a b; decide

theorem bump_eq_safe (a b : DangerLevel) (h : bump a b = .SAFE) :
    a = .SAFE ∧ b = .SAFE := by
  revert a b; decide

theorem foldl_bump_split (l : List DangerLevel) (a : DangerLevel) :
    l.foldl bump a = bump a (maxLevelOf l) := by
  induction l generalizing a with
  | nil => simp [maxLevelOf, bump_safe_right]
  | cons h t ih =>
    simp only [maxLevelOf, List.foldl_cons]
    rw [ih (bump a h), ih (bump .SAFE h), bump_safe_left, bump_assoc]

theorem maxLevelOf_append (l₁ l₂ : List DangerLevel) :
    maxLevelOf (l₁ ++ l₂) = bump (maxLevelOf l₁) (maxLevelOf l₂) := by
  rw [maxLevelOf, List.foldl_append, foldl_bump_split]
  rfl

theorem mem_val_le_maxLevelOf (l : List DangerLevel) (x : DangerLevel)
    (hx : x ∈ l) : x.value ≤ (maxLevelOf l).value := by
  induction l with
  | nil => cases hx
  | cons h t ih =>
    have hsplit : maxLevelOf (h :: t) = bump h (maxLevelOf t) := by
      simp only [maxLevelOf, List.foldl_cons, bump_safe_left]
      exact foldl_bump_split t h
    rw [hsplit, bump_val]
    rcases List.mem_cons.mp hx with rfl | hmem
    · exact Nat.le_max_left _ _
    · exact Nat.le_trans (ih hmem) (Nat.le_max_right _ _)

theorem maxLevelOf_constMap {α : Type} (l : List α) (c : DangerLevel) :
    maxLevelOf (l.map (fun _ => c)) = if l.isEmpty then .SAFE else c := by
  induction l with
  | nil => rfl
  | cons h t ih =>
    simp only [List.map_cons, List.isEmpty_cons]
    have hsplit : maxLevelOf (c :: t.map (fun _ => c)) =
        bump c (maxLevelOf (t.map (fun _ => c))) := by
      simp only [maxLevelOf, List.foldl_cons, bump_safe_left]
      exact foldl_bump_split _ c
    rw [hsplit, ih]
    by_cases h0 : t.isEmpty
    · simp [h0, bump_safe_right]
    · simp only [h0, if_false, Bool.false_eq_true, bump_self]

theorem value_le_four (a : DangerLevel) : a.value ≤ 4 := by
  revert a; decide

theorem eq_critical_of_value (a : DangerLevel) (h : a.value = 4) :
    a = .CRITICAL := by revert a; decide

theorem maxLevelOf_critical_mem (l : List DangerLevel)
    (h : DangerLevel.CRITICAL ∈ l) : maxLevelOf l = .CRITICAL := by
  apply eq_critical_of_value
  have h1 : 4 ≤ (maxLevelOf l).value := mem_val_le_maxLevelOf l .CRITICAL h
  have h2 := value_le_four (maxLevelOf l)
  omega

/-! ## Lemmas about blank commands -/

theorem pyspace_toLower (c : Char) (h : isPySpace c = true) : c.toLower = c := by
  simp only [isPySpace, Bool.or_eq_true, decide_eq_true_eq] at h
  rcases h with ((((rfl | rfl) | rfl) | rfl) | rfl) | rfl <;> decide

theorem all_pyspace_lower (d : List Char) (h : d.all isPySpace = true) :
    lowerL d = d := by
  induction d with
  | nil => rfl
  | cons c t ih =>
    simp only [List.all_cons, Bool.and_eq_true] at h
    simp only [lowerL, List.map_cons]
    rw [pyspace_toLower c h.1]
    exact congrArg (c :: ·) (ih h.2)

theorem all_pyspace_strip (d : List Char) (h : d.all isPySpace = true) :
    stripL d = [] := by
  have h1 : d.dropWhile isPySpace = [] := by
    induction d with
    | nil => rfl
    | cons c t ih =>
      simp only [List.all_cons, Bool.and_eq_true] at h
      rw [List.dropWhile_cons_of_pos h.1]
      exact ih h.2
  simp [stripL, h1]

theorem blank_clOf (s : String) (h : s.data.all isPySpace = true) :
    clOf s = [] := by
  unfold clOf
  rw [all_pyspace_lower _ h, all_pyspace_strip _ h]

theorem shlexAux_pyspace (d : List Char) (h : ∀ c ∈ d, isPySpace c = true) :
    ∀ cur acc, (shlexAux .norm cur acc d).isSome = true := by
  induction d with
  | nil => intro cur acc; cases cur <;> simp [shlexAux]
  | cons c t ih =>
    intro cur acc
    have hc := h c (List.mem_cons_self c t)
    have ht : ∀ x ∈ t, isPySpace x = true :=
      fun x hx => h x (List.mem_cons_of_mem _ hx)
    simp only [isPySpace, Bool.or_eq_true, decide_eq_true_eq] at hc
    rcases hc with ((((rfl | rfl) | rfl) | rfl) | rfl) | rfl <;> cases cur <;>
      exact ih ht _ _

theorem blank_shlexSome (d : List Char) (h : d.all isPySpace = true) :
    (shlexSplit d).isSome = true := by
  have h1 := shlexAux_pyspace d (List.all_eq_true.mp h) none []
  unfold shlexSplit
  cases hx : shlexAux ShSt.norm none [] d with
  | none => rw [hx] at h1; simp at h1
  | some v => simp

/-! ## Every context/structure finding carries a level of at least LOW -/

theorem mem_ite_nil {α : Type} {P : Prop} [Decidable P] {l : List α} {x : α}
    (h : x ∈ (if P then l else [])) : x ∈ l := by
  split at h
  · exact h
  · cases h

theorem mem_ite_nil_else {α : Type} {P : Prop} [Decidable P] {l : List α} {x : α}
    (h : x ∈ (if P then [] else l)) : x ∈ l := by
  split at h
  · cases h
  · exact h

theorem ctx_finding_pos (command : String) (c : Ctx) (f : Finding)
    (hf : f ∈ contextFindings command c) : 1 ≤ f.1.value := by
  unfold contextFindings at hf
  rcases List.mem_append.mp hf with h | h
  · obtain ⟨pr, _, rfl⟩ := List.mem_map.mp (mem_ite_nil h)
    simp [DangerLevel.value]
  · have h2 := mem_ite_nil_else (mem_ite_nil h)
    rw [List.mem_singleton.mp h2]
    simp [DangerLevel.value]

theorem struct_finding_pos (command : String) (f : Finding)
    (hf : f ∈ structureFindings command) : 1 ≤ f.1.value := by
  unfold structureFindings at hf
  rcases List.mem_append.mp hf with hf4 | hE
  · rcases List.mem_append.mp hf4 with hf3 | hD
    · rcases List.mem_append.mp hf3 with hf2 | hC
      · rcases List.mem_append.mp hf2 with hA | hB
        · rw [List.mem_singleton.mp (mem_ite_nil hA)]; simp [DangerLevel.value]
        · rw [List.mem_singleton.mp (mem_ite_nil hB)]; simp [DangerLevel.value]
      · rw [List.mem_singleton.mp (mem_ite_nil hC)]; simp [DangerLevel.value]
    · rw [List.mem_singleton.mp (mem_ite_nil hD)]; simp [DangerLevel.value]
  · rcases hsp : shlexSplit command.data with _ | ts
    · simp only [hsp] at hE
      rw [List.mem_singleton.mp hE]; simp [DangerLevel.value]
    · cases ts with
      | nil => simp only [hsp] at hE; cases hE
      | cons p0 rest =>
        simp only [hsp] at hE
        rw [List.mem_singleton.mp (mem_ite_nil hE)]; simp [DangerLevel.value]

theorem findings_nil_of_safe (fs : List Finding)
    (hpos : ∀ f ∈ fs, 1 ≤ f.1.value)
    (h : maxLevelOf (fs.map (·.1)) = .SAFE) : fs = [] := by
  cases fs with
  | nil => rfl
  | cons f t =>
    exfalso
    have hm : f.1 ∈ (f :: t).map (·.1) :=
      List.mem_map_of_mem _ (List.mem_cons_self f t)
    have hle := mem_val_le_maxLevelOf _ _ hm
    rw [h] at hle
    have hle0 : f.1.value ≤ 0 := hle
    have h1 := hpos f (List.mem_cons_self f t)
    omega

/-! ## Case analysis of `analyze_command` on the non-critical path -/

theorem analyze_command_cases (cmd : String) (ctx : Option Ctx)
    (hg : cmd.data.all isPySpace = false)
    (hc : critical_patterns.find? (fun p => research p.1 (clOf cmd)) = none) :
    analyze_command cmd ctx =
      ⟨baseLevel cmd ctx, collectedReasons cmd ctx,
       (collectedSuggs cmd ctx).dedup⟩ ∨
    (analyze_command cmd ctx = ⟨.SAFE, [safeReadOnly], []⟩ ∧
     baseLevel cmd ctx = .SAFE) := by
  unfold analyze_command
  simp only [hg, Bool.false_eq_true, if_false, hc]
  split
  · rename_i hsafe
    split
    · split
      · exact Or.inr ⟨rfl, hsafe⟩
      · exact Or.inl (by rw [hsafe])
    · exact Or.inl (by rw [hsafe])
  · exact Or.inl rfl

theorem analyze_command_level (cmd : String) (ctx : Option Ctx)
    (hg : cmd.data.all isPySpace = false)
    (hc : critical_patterns.find? (fun p => research p.1 (clOf cmd)) = none) :
    (analyze_command cmd ctx).level = baseLevel cmd ctx := by
  rcases analyze_command_cases cmd ctx hg hc with h | ⟨h, hsafe⟩
  · rw [h]
  · rw [h, hsafe]

/-! ## Claims -/

/-- Claim C1: whenever some CRITICAL-tier pattern matches the normalized
command, `analyze_command` returns level CRITICAL with exactly the matching
pattern's reason as its single reason and the two fixed suggestions,
regardless of any other pattern, structural or context finding. -/
theorem claim_C1 (cmd : String) (ctx : Option Ctx)
    (h : critical_patterns.any (fun p => research p.1 (clOf cmd)) = true) :
    ∃ p ∈ critical_patterns, research p.1 (clOf cmd) = true ∧
      analyze_command cmd ctx =
        ⟨.CRITICAL, [p.2], [critSugg1, critSugg2]⟩ := by
  have hg : cmd.data.all isPySpace = false := by
    by_contra hgc
    rw [Bool.not_eq_false] at hgc
    rw [blank_clOf cmd hgc] at h
    have hnone : critical_patterns.any (fun p => research p.1 []) = false := by
      decide
    rw [hnone] at h
    cases h
  obtain ⟨q, hq⟩ : ∃ q,
      critical_patterns.find? (fun p => research p.1 (clOf cmd)) = some q :=
    Option.isSome_iff_exists.mp (List.find?_isSome.mpr (List.any_eq_true.mp h))
  have hqp := List.find?_some hq
  refine ⟨q, List.mem_of_find?_eq_some hq, hqp, ?_⟩
  unfold analyze_command
  simp only [hg, Bool.false_eq_true, if_false, hq]

/-- Witness for C1 at the concrete command `rm -rf /`. -/
theorem claim_C1_witness :
    critical_patterns.any (fun p => research p.1 (clOf "rm -rf /")) = true ∧
    ∃ p ∈ critical_patterns, research p.1 (clOf "rm -rf /") = true ∧
      analyze_command "rm -rf /" none =
        ⟨.CRITICAL, [p.2], [critSugg1, critSugg2]⟩ :=
  ⟨by decide, claim_C1 "rm -rf /" none (by decide)⟩

/-- Counterexample to C4 as stated: for `sudo rm -rf /var/log/*` the
destructive-wildcard structural finding is NOT among the reasons (the
CRITICAL short-circuit fires first on the `rm -rf /` pattern). -/
theorem claim_C4_counterexample :
    "Wildcard usage in potentially destructive command" ∉
      (analyze_command "sudo rm -rf /var/log/*" none).reasons ∧
    "Recursive deletion with sudo privileges" ∉
      (analyze_command "sudo rm -rf /var/log/*" none).reasons := by
  constructor <;> decide

/-- Claim C4 (amended): `analyze_command "sudo rm -rf /var/log/*"` returns a
verdict of level CRITICAL (hence at least HIGH), produced by the CRITICAL
root-deletion pattern short-circuit, with exactly that one reason; the
sudo-recursive-deletion and wildcard findings are never evaluated. -/
theorem claim_C4 :
    analyze_command "sudo rm -rf /var/log/*" none =
      ⟨.CRITICAL, ["Attempting to delete root filesystem"],
       [critSugg1, critSugg2]⟩ ∧
    DangerLevel.HIGH.value ≤
      (analyze_command "sudo rm -rf /var/log/*" none).level.value := by
  constructor <;> decide

/-- Counterexample to C2 as stated: for the whitespace-only command `" "`
with context `cwd = "/etc"`, `analyze_command` returns level SAFE via the
empty-command early return, while the context pass evaluated independently
produces a MEDIUM protected-directory finding. -/
theorem claim_C2_counterexample :
    (analyze_command " " (some ⟨"/etc", []⟩)).level = .SAFE ∧
    maxLevelOf (independentLevels " " (some ⟨"/etc", []⟩)) = .MEDIUM := by
  constructor <;> decide

/-- Claim C2 (amended): for every command with some non-whitespace character
(and optional context), the verdict level equals the maximum of the levels of
the findings every pass would produce independently (the maximum of the empty
collection being SAFE). -/
theorem claim_C2 (cmd : String) (ctx : Option Ctx)
    (hg : cmd.data.all isPySpace = false) :
    (analyze_command cmd ctx).level = maxLevelOf (independentLevels cmd ctx) := by
  cases hc : critical_patterns.find? (fun p => research p.1 (clOf cmd)) with
  | some q =>
    have hmem : DangerLevel.CRITICAL ∈ independentLevels cmd ctx := by
      have hq1 := List.mem_of_find?_eq_some hc
      have hq2 := List.find?_some hc
      have hqf : q ∈ tierHits critical_patterns (clOf cmd) :=
        List.mem_filter.mpr ⟨hq1, hq2⟩
      unfold independentLevels
      exact List.mem_append_left _ (List.mem_append_left _ (List.mem_append_left _
        (List.mem_append_left _ (List.mem_append_left _
          (List.mem_map_of_mem _ hqf)))))
    rw [maxLevelOf_critical_mem _ hmem]
    unfold analyze_command
    simp only [hg, Bool.false_eq_true, if_false, hc]
  | none =>
    rw [analyze_command_level cmd ctx hg hc]
    have hcrit : tierHits critical_patterns (clOf cmd) = [] := by
      unfold tierHits
      exact List.filter_eq_nil_iff.mpr (List.find?_eq_none.mp hc)
    unfold independentLevels
    rw [hcrit, List.map_nil, List.nil_append]
    rw [maxLevelOf_append, maxLevelOf_append, maxLevelOf_append,
      maxLevelOf_append]
    rw [maxLevelOf_constMap, maxLevelOf_constMap, maxLevelOf_constMap]
    unfold baseLevel tierLevel analyze_context analyze_structure riskOfFindings
    rw [bump_safe_left]

/-- Witness for C2 at the concrete command `ls -la`. -/
theorem claim_C2_witness :
    ("ls -la" : String).data.all isPySpace = false ∧
    (analyze_command "ls -la" none).level =
      maxLevelOf (independentLevels "ls -la" none) :=
  ⟨by decide, claim_C2 "ls -la" none (by decide)⟩

/-- Claim C9: supplying a context never lowers the verdict level — the
context pass can only raise the aggregated maximum. -/
theorem claim_C9 (cmd : String) (c : Ctx) :
    (analyze_command cmd none).level.value ≤
      (analyze_command cmd (some c)).level.value := by
  by_cases hg : cmd.data.all isPySpace = true
  · unfold analyze_command
    simp only [hg, if_true]
    exact Nat.le_refl _
  · have hg' := Bool.eq_false_iff.mpr hg
    cases hc : critical_patterns.find? (fun p => research p.1 (clOf cmd)) with
    | some q =>
      unfold analyze_command
      simp only [hg', Bool.false_eq_true, if_false, hc]
      exact Nat.le_refl _
    | none =>
      rw [analyze_command_level cmd none hg' hc,
        analyze_command_level cmd (some c) hg' hc]
      unfold baseLevel
      have hnone : (analyze_context cmd none).level = .SAFE := rfl
      rw [hnone, bump_safe_right]
      simp only [bump_val]
      exact max_le_max (Nat.le_max_left _ _) (Nat.le_refl _)

theorem tier_nil {hits : List (Rx × String)} {lvl : DangerLevel}
    (hlvl : lvl ≠ .SAFE) (h : tierLevel hits lvl = .SAFE) : hits = [] := by
  unfold tierLevel at h
  split at h
  · rename_i he
    exact List.isEmpty_iff.mp he
  · exact absurd h hlvl

theorem ctxOpt_finding_pos (cmd : String) (ctx : Option Ctx) (f : Finding)
    (hf : f ∈ contextFindingsOpt cmd ctx) : 1 ≤ f.1.value := by
  cases ctx with
  | none => cases hf
  | some c => exact ctx_finding_pos cmd c f hf

/-- Claim C10: a SAFE verdict never carries risk reasons — its reasons list
is empty or exactly the safe-read-only notice. -/
theorem claim_C10 (cmd : String) (ctx : Option Ctx)
    (h : (analyze_command cmd ctx).level = .SAFE) :
    (analyze_command cmd ctx).reasons = [] ∨
    (analyze_command cmd ctx).reasons = [safeReadOnly] := by
  by_cases hg : cmd.data.all isPySpace = true
  · unfold analyze_command
    simp only [hg, if_true]
    exact Or.inl trivial
  · have hg' := Bool.eq_false_iff.mpr hg
    cases hc : critical_patterns.find? (fun p => research p.1 (clOf cmd)) with
    | some q =>
      exfalso
      unfold analyze_command at h
      simp only [hg', Bool.false_eq_true, if_false, hc] at h
      cases h
    | none =>
      rw [analyze_command_level cmd ctx hg' hc] at h
      rcases analyze_command_cases cmd ctx hg' hc with hcase | ⟨hcase, _⟩
      · left
        rw [hcase]
        unfold baseLevel at h
        have h1 := bump_eq_safe _ _ h
        have h2 := bump_eq_safe _ _ h1.1
        have h3 := bump_eq_safe _ _ h2.1
        have h4 := bump_eq_safe _ _ h3.1
        have h5 := bump_eq_safe _ _ h4.1
        have hH : tierHits high_patterns (clOf cmd) = [] :=
          tier_nil (by decide) h5.2
        have hM : tierHits medium_patterns (clOf cmd) = [] :=
          tier_nil (by decide) h4.2
        have hL : tierHits low_patterns (clOf cmd) = [] :=
          tier_nil (by decide) h3.2
        have hCX : contextFindingsOpt cmd ctx = [] :=
          findings_nil_of_safe _ (ctxOpt_finding_pos cmd ctx) h2.2
        have hST : structureFindings cmd = [] :=
          findings_nil_of_safe _ (struct_finding_pos cmd) h1.2
        unfold collectedReasons analyze_context analyze_structure riskOfFindings
        rw [hH, hM, hL, hCX, hST]
        rfl
      · right
        rw [hcase]

/-- Witness for C10 at the concrete command `ls -la`. -/
theorem claim_C10_witness :
    (analyze_command "ls -la" none).level = .SAFE ∧
    ((analyze_command "ls -la" none).reasons = [] ∨
     (analyze_command "ls -la" none).reasons = [safeReadOnly]) :=
  ⟨by decide, claim_C10 "ls -la" none (by decide)⟩

/-- Claim C5: a non-blank command with no findings from any tier or pass
yields `SAFE` with the single safe-read-only reason when its leading shlex
token is a safe prefix, and `SAFE` with no reasons otherwise. -/
theorem claim_C5 (cmd : String) (ctx : Option Ctx)
    (hg : cmd.data.all isPySpace = false)
    (hcrit : tierHits critical_patterns (clOf cmd) = [])
    (hhigh : tierHits high_patterns (clOf cmd) = [])
    (hmed : tierHits medium_patterns (clOf cmd) = [])
    (hlow : tierHits low_patterns (clOf cmd) = [])
    (hstr : structureFindings cmd = [])
    (hctx : contextFindingsOpt cmd ctx = []) :
    ((∃ t rest, shlexSplit cmd.data = some (t :: rest) ∧ t ∈ safe_prefixes) →
       analyze_command cmd ctx = ⟨.SAFE, [safeReadOnly], []⟩) ∧
    ((¬ ∃ t rest, shlexSplit cmd.data = some (t :: rest) ∧ t ∈ safe_prefixes) →
       analyze_command cmd ctx = ⟨.SAFE, [], []⟩) := by
  have hc : critical_patterns.find? (fun p => research p.1 (clOf cmd)) = none :=
    List.find?_eq_none.mpr (List.filter_eq_nil_iff.mp hcrit)
  have hbase : baseLevel cmd ctx = .SAFE := by
    unfold baseLevel tierLevel analyze_context analyze_structure riskOfFindings
    rw [hhigh, hmed, hlow, hctx, hstr]
    rfl
  have hrs : collectedReasons cmd ctx = [] := by
    unfold collectedReasons analyze_context analyze_structure riskOfFindings
    rw [hhigh, hmed, hlow, hctx, hstr]
    rfl
  have hsg : (collectedSuggs cmd ctx).dedup = [] := by
    unfold collectedSuggs analyze_context analyze_structure riskOfFindings
    rw [hhigh, hmed, hlow, hctx, hstr]
    rfl
  constructor
  · rintro ⟨t, rest, hsp, hmemt⟩
    unfold analyze_command
    simp only [hg, Bool.false_eq_true, if_false, hc, hbase, if_true, hsp, hmemt]
  · intro hno
    unfold analyze_command
    simp only [hg, Bool.false_eq_true, if_false, hc, hbase, if_true]
    cases hsp : shlexSplit cmd.data with
    | none => simp only [hrs, hsg]
    | some parts =>
      cases parts with
      | nil => simp only [hrs, hsg]
      | cons t rest =>
        have hnot : t ∉ safe_prefixes := fun hmemt => hno ⟨t, rest, hsp, hmemt⟩
        simp only [hnot, if_false, hrs, hsg]

/-- Witness for C5 at the concrete command `ls -la` (leading token in the
safe-prefix set) — every no-finding hypothesis is discharged by evaluation. -/
theorem claim_C5_witness :
    (("ls -la" : String).data.all isPySpace = false ∧
     tierHits critical_patterns (clOf "ls -la") = [] ∧
     tierHits high_patterns (clOf "ls -la") = [] ∧
     tierHits medium_patterns (clOf "ls -la") = [] ∧
     tierHits low_patterns (clOf "ls -la") = [] ∧
     structureFindings "ls -la" = [] ∧
     contextFindingsOpt "ls -la" none = []) ∧
    analyze_command "ls -la" none = ⟨.SAFE, [safeReadOnly], []⟩ :=
  ⟨⟨by decide, List.isEmpty_iff.mp (by decide), List.isEmpty_iff.mp (by decide),
    List.isEmpty_iff.mp (by decide), List.isEmpty_iff.mp (by decide),
    by decide, by decide⟩,
   (claim_C5 "ls -la" none (by decide) (List.isEmpty_iff.mp (by decide))
     (List.isEmpty_iff.mp (by decide)) (List.isEmpty_iff.mp (by decide))
     (List.isEmpty_iff.mp (by decide)) (by decide) (by decide)).1
     ⟨"ls", ["-la"], by decide, by decide⟩⟩

/-- Counterexample to C6 as stated: `rm -rf / '` cannot be tokenized
(unbalanced quote), yet the verdict carries no malformed-syntax reason,
because the CRITICAL short-circuit returns before the structure pass. -/
theorem claim_C6_counterexample :
    shlexSplit ("rm -rf / \x27" : String).data = none ∧
    "Command has malformed syntax" ∉
      (analyze_command "rm -rf / \x27" none).reasons := by
  constructor <;> decide

/-- Claim C6 (amended): `analyze_command` is a total function (the embedding
returns a verdict for every input); for every command that cannot be
tokenized and matches no CRITICAL pattern, the verdict level is at least LOW
and the reasons include the malformed-syntax reason. -/
theorem claim_C6 (cmd : String) (ctx : Option Ctx)
    (hs : shlexSplit cmd.data = none)
    (hc : critical_patterns.find? (fun p => research p.1 (clOf cmd)) = none) :
    DangerLevel.LOW.value ≤ (analyze_command cmd ctx).level.value ∧
    "Command has malformed syntax" ∈ (analyze_command cmd ctx).reasons := by
  have hg : cmd.data.all isPySpace = false := by
    by_contra hgc
    rw [Bool.not_eq_false] at hgc
    have hsome := blank_shlexSome cmd.data hgc
    rw [hs] at hsome
    cases hsome
  have hmem : (DangerLevel.LOW, "Command has malformed syntax",
      "Check command syntax before execution") ∈ structureFindings cmd := by
    unfold structureFindings
    refine List.mem_append_right _ ?_
    simp only [hs]
    exact List.mem_singleton.mpr rfl
  have hstlev : DangerLevel.LOW.value ≤ (analyze_structure cmd).level.value := by
    unfold analyze_structure riskOfFindings
    exact mem_val_le_maxLevelOf _ _ (List.mem_map_of_mem _ hmem)
  constructor
  · rw [analyze_command_level cmd ctx hg hc]
    unfold baseLevel
    refine Nat.le_trans hstlev ?_
    rw [bump_val]
    exact Nat.le_max_right _ _
  · rcases analyze_command_cases cmd ctx hg hc with hcase | ⟨hcase, hsafe⟩
    · rw [hcase]
      unfold collectedReasons
      refine List.mem_append_right _ ?_
      unfold analyze_structure riskOfFindings
      exact List.mem_map_of_mem _ hmem
    · exfalso
      unfold baseLevel at hsafe
      have h1 := bump_eq_safe _ _ hsafe
      have hnil := findings_nil_of_safe (structureFindings cmd)
        (struct_finding_pos cmd) h1.2
      rw [hnil] at hmem
      cases hmem

/-- Witness for C6 at the concrete command `ls '` (unbalanced quote, no
CRITICAL match). -/
theorem claim_C6_witness :
    shlexSplit ("ls \x27" : String).data = none ∧
    (DangerLevel.LOW.value ≤ (analyze_command "ls \x27" none).level.value ∧
     "Command has malformed syntax" ∈ (analyze_command "ls \x27" none).reasons) :=
  ⟨by decide, claim_C6 "ls \x27" none (by decide)
    (Option.isNone_iff_eq_none.mp (by decide))⟩

/-- Claim C7: suggestions are always free of duplicates, while reasons are
not deduplicated — the command `wget x | bash && curl y | sh` triggers the
wget and curl MEDIUM patterns, whose identical reason wording appears
twice. -/
theorem claim_C7 :
    (∀ (cmd : String) (ctx : Option Ctx),
       (analyze_command cmd ctx).suggestions.Nodup) ∧
    (analyze_command "wget x | bash && curl y | sh" none).reasons.count
        "Downloading and executing remote scripts" = 2 := by
  constructor
  · intro cmd ctx
    by_cases hg : cmd.data.all isPySpace = true
    · unfold analyze_command
      simp only [hg, if_true]
      exact List.nodup_nil
    · have hg' := Bool.eq_false_iff.mpr hg
      cases hc : critical_patterns.find? (fun p => research p.1 (clOf cmd)) with
      | some q =>
        unfold analyze_command
        simp only [hg', Bool.false_eq_true, if_false, hc]
        decide
      | none =>
        rcases analyze_command_cases cmd ctx hg' hc with h | ⟨h, _⟩
        · rw [h]
          exact List.nodup_dedup _
        · rw [h]
          exact List.nodup_nil
  · decide

/-- Counterexample to C3 as stated: for the CRITICAL command `rm -rf /` the
direct-command flow presents no confirmation prompt at all — with safe mode
enabled its confirmation block raises `TypeError` at the plain-`Enum`
ordering comparison before any `Confirm.ask` — so no two sequential
confirmations are required in that flow. -/
theorem claim_C3_counterexample :
    (analyze_command "rm -rf /" none).level = .CRITICAL ∧
    directConfirmFlow (analyze_command "rm -rf /" none).level true =
      .raised ∧
    directConfirmFlow (analyze_command "rm -rf /" none).level false =
      .prompts [] := by
  refine ⟨?_, ?_, ?_⟩ <;> decide

/-- Claim C3 (amended): for a CRITICAL verdict, the natural-language flow
presents two sequential distinct prompts, both defaulting to decline, and
declining either aborts execution; the direct-command flow presents no
prompt at all: with safe mode disabled its confirmation block is skipped,
and with safe mode enabled the block raises `TypeError` at the plain-`Enum`
ordering comparison (`core.py` line 842) before any prompt, so the command
is not executed there. -/
theorem claim_C3 (cmd : String) (ctx : Option Ctx) (ac : Bool)
    (h : (analyze_command cmd ctx).level = .CRITICAL) :
    nlPrompts (analyze_command cmd ctx).level ac =
      [⟨"Type \x27I understand the risks\x27 to continue", false⟩,
       ⟨"Are you absolutely certain you want to proceed?", false⟩] ∧
    ((nlPrompts (analyze_command cmd ctx).level ac).map (fun p => p.text)).Nodup ∧
    directConfirmFlow (analyze_command cmd ctx).level true = .raised ∧
    directConfirmFlow (analyze_command cmd ctx).level false = .prompts [] ∧
    (∀ ans : Nat → Bool, ans 0 = false ∨ ans 1 = false →
       proceeds (nlPrompts (analyze_command cmd ctx).level ac) ans = false) := by
  rw [h]
  have hnl : nlPrompts .CRITICAL ac =
      [⟨"Type \x27I understand the risks\x27 to continue", false⟩,
       ⟨"Are you absolutely certain you want to proceed?", false⟩] := by
    cases ac <;> rfl
  refine ⟨hnl, ?_, rfl, rfl, ?_⟩
  · rw [hnl]; decide
  · intro ans hans
    rw [hnl]
    unfold proceeds
    have hr : List.range 2 = [0, 1] := rfl
    rcases hans with h0 | h1
    · simp [hr, h0]
    · simp [hr, h1]

/-- Witness for C3 at the concrete command `rm -rf /`. -/
theorem claim_C3_witness :
    (analyze_command "rm -rf /" none).level = .CRITICAL ∧
    nlPrompts (analyze_command "rm -rf /" none).level true =
      [⟨"Type \x27I understand the risks\x27 to continue", false⟩,
       ⟨"Are you absolutely certain you want to proceed?", false⟩] :=
  ⟨by decide, (claim_C3 "rm -rf /" none true (by decide)).1⟩

/-- Counterexample to C8 as stated: for the MEDIUM command
`rm -rf temp_folder` the direct-command flow never presents a confirmation
prompt — with safe mode disabled the confirmation block is skipped, and with
safe mode enabled it raises `TypeError` at the plain-`Enum` ordering
comparison before any `Confirm.ask` — so no decline-default prompt is
presented in that flow. -/
theorem claim_C8_counterexample :
    (analyze_command "rm -rf temp_folder" none).level = .MEDIUM ∧
    directConfirmFlow (analyze_command "rm -rf temp_folder" none).level false =
      .prompts [] ∧
    directConfirmFlow (analyze_command "rm -rf temp_folder" none).level true =
      .raised := by
  refine ⟨?_, ?_, ?_⟩ <;> decide

/-- Claim C8 (amended): for a MEDIUM verdict, the natural-language flow
presents exactly one prompt defaulting to accept; the direct-command flow
presents no prompt: with safe mode disabled its confirmation block is
skipped, and with safe mode enabled the block raises `TypeError` at the
plain-`Enum` ordering comparison (`core.py` line 842) before reaching its
(unreachable) decline-default prompt. -/
theorem claim_C8 (cmd : String) (ctx : Option Ctx) (ac : Bool)
    (h : (analyze_command cmd ctx).level = .MEDIUM) :
    nlPrompts (analyze_command cmd ctx).level ac =
      [⟨"Proceed with this potentially risky command?", true⟩] ∧
    directConfirmFlow (analyze_command cmd ctx).level true = .raised ∧
    directConfirmFlow (analyze_command cmd ctx).level false = .prompts [] := by
  rw [h]
  exact ⟨by cases ac <;> rfl, rfl, rfl⟩

/-- Witness for C8 at the concrete command `rm -rf temp_folder`. -/
theorem claim_C8_witness :
    (analyze_command "rm -rf temp_folder" none).level = .MEDIUM ∧
    nlPrompts (analyze_command "rm -rf temp_folder" none).level false =
      [⟨"Proceed with this potentially risky command?", true⟩] :=
  ⟨by decide, (claim_C8 "rm -rf temp_folder" none false (by decide)).1⟩
